import Mathlib

/-!
# Verification of the xen.fun LIT framework and Xenial fusion engine

A shallow embedding of `src/lit-framework.js` and `src/xenial-fusion.js`.

Numbers: JavaScript numbers are IEEE doubles.  We model them exactly (no
rounding) by `Q`, an executable rational (an integer pair with a positive
denominator, so every arithmetic operation and comparison reduces in the
kernel), wrapped in `JSNum`, which adds the special values `NaN`, `Infinity`
and `-Infinity` with JavaScript's propagation rules (`0 * Infinity = NaN`,
`x / 0 = ±Infinity` for `x ≠ 0`, `0 / 0 = NaN`, every comparison with `NaN`
false, `Math.min/max` returning `NaN` when an argument is `NaN`).  The
transcendental library functions `Math.log`, `Math.exp`, `Math.log2` and the
host-dependent primitives (id generation, `Date.toISOString`, `Math.random`,
number formatting, `JSON.stringify`) are abstracted as fields of an `Env`
record; each embedded operation takes the `Env` and the current `Date.now()
` tick explicitly.

Undefined: a JavaScript object field can be absent, `undefined` or `null`;
`JsonVal.obj` stores `Option JsonVal` values (`none` = present but
`undefined`) and field lookup returns `none` for absent, `undefined` and
non-object receivers.  A capability passed to the `AgentSystem` constructor
has no `uses` field; at every site where the code reads `uses`
(`uses++`, `sum + c.uses`, `c.uses > 0`) the JavaScript value `undefined`
behaves exactly like `NaN`, so such capabilities are stored with
`uses = JSNum.nan`.

The embedding models the `throw` statements of the source as `Except`
results threaded with the state at the point of the throw; host-language
`TypeError`s (property access on `null`, a user handler throwing) are
outside its scope.
-/

/-- An executable rational: numerator over a positive denominator, not
necessarily reduced (no gcd, so the kernel can evaluate every operation). -/
structure Q where
  num : Int
  den : Int
  den_pos : 0 < den

/-- Build a `Q`, defaulting to denominator 1 if the given one is not positive
(never happens in the embedding: every denominator below is positive). -/
def Qi (n d : Int) : Q :=
  if h : 0 < d then Q.mk n d h else Q.mk n 1 (by decide)

def Q.zero : Q := Q.mk 0 1 (by decide)

def Q.one : Q := Q.mk 1 1 (by decide)

def Q.ofNat (n : Nat) : Q := Q.mk (Int.ofNat n) 1 (by decide)

def Q.add (a b : Q) : Q :=
  Q.mk (a.num * b.den + b.num * a.den) (a.den * b.den) (Int.mul_pos a.den_pos b.den_pos)

def Q.mul (a b : Q) : Q :=
  Q.mk (a.num * b.num) (a.den * b.den) (Int.mul_pos a.den_pos b.den_pos)

def Q.neg (a : Q) : Q := Q.mk (-a.num) a.den a.den_pos

def Q.sub (a b : Q) : Q := Q.add a (Q.neg b)

/-- Division by a `Q` whose value is nonzero (`b.num ≠ 0`); the sign of
`b.num` is moved to the numerator so the denominator stays positive. -/
def Q.div (a b : Q) (h : b.num ≠ 0) : Q :=
  if hp : 0 < b.num then Q.mk (a.num * b.den) (a.den * b.num) (Int.mul_pos a.den_pos hp)
  else
    Q.mk (-(a.num * b.den)) (a.den * (-b.num))
      (Int.mul_pos a.den_pos (by omega))

/-- Total division: value `a / b`, and (an arbitrary) `0` when `b = 0`.  Used
only where the source can never divide by zero (commented at each use). -/
def Q.qdiv (a b : Q) : Q :=
  if h : b.num = 0 then Q.zero else Q.div a b h

def Q.abs (a : Q) : Q := Q.mk (Int.ofNat a.num.natAbs) a.den a.den_pos

/-- Value comparison `a ≤ b` (valid because denominators are positive). -/
def Q.ble (a b : Q) : Bool := a.num * b.den ≤ b.num * a.den

/-- Value comparison `a < b`. -/
def Q.blt (a b : Q) : Bool := a.num * b.den < b.num * a.den

/-- Value equality (cross multiplication; `Q` is not reduced). -/
def Q.beqv (a b : Q) : Bool := a.num * b.den = b.num * a.den

def Q.min (a b : Q) : Q := if Q.ble a b then a else b

def Q.max (a b : Q) : Q := if Q.ble a b then b else a

/-- The rational number a `Q` stands for. -/
def Q.toRat (a : Q) : ℚ := (a.num : ℚ) / (a.den : ℚ)

/-- A JavaScript number: a finite rational or one of the three special IEEE
values `NaN`, `Infinity`, `-Infinity`. -/
inductive JSNum where
  | nan
  | pinf
  | ninf
  | fin (q : Q)

def JSNum.ofNat (n : Nat) : JSNum := JSNum.fin (Q.ofNat n)

def JSNum.isNan : JSNum → Bool
  | JSNum.nan => true
  | _ => false

/-- `x` is a finite number `≥ 0`. -/
def JSNum.nonnegFin : JSNum → Bool
  | JSNum.fin q => Q.ble Q.zero q
  | _ => false

/-- `x` is a finite number in `[0, 1]`. -/
def JSNum.inUnit : JSNum → Bool
  | JSNum.fin q => Q.ble Q.zero q && Q.ble q Q.one
  | _ => false

def jadd : JSNum → JSNum → JSNum
  | JSNum.nan, _ => JSNum.nan
  | _, JSNum.nan => JSNum.nan
  | JSNum.pinf, JSNum.ninf => JSNum.nan
  | JSNum.ninf, JSNum.pinf => JSNum.nan
  | JSNum.pinf, _ => JSNum.pinf
  | _, JSNum.pinf => JSNum.pinf
  | JSNum.ninf, _ => JSNum.ninf
  | _, JSNum.ninf => JSNum.ninf
  | JSNum.fin a, JSNum.fin b => JSNum.fin (Q.add a b)

def jneg : JSNum → JSNum
  | JSNum.nan => JSNum.nan
  | JSNum.pinf => JSNum.ninf
  | JSNum.ninf => JSNum.pinf
  | JSNum.fin a => JSNum.fin (Q.neg a)

def jsub (a b : JSNum) : JSNum := jadd a (jneg b)

/-- The sign of an infinite product/quotient with a finite factor. -/
def jsignedInf (pos : Bool) : JSNum := if pos then JSNum.pinf else JSNum.ninf

def jmul : JSNum → JSNum → JSNum
  | JSNum.nan, _ => JSNum.nan
  | _, JSNum.nan => JSNum.nan
  | JSNum.pinf, JSNum.pinf => JSNum.pinf
  | JSNum.pinf, JSNum.ninf => JSNum.ninf
  | JSNum.ninf, JSNum.pinf => JSNum.ninf
  | JSNum.ninf, JSNum.ninf => JSNum.pinf
  | JSNum.pinf, JSNum.fin b =>
    if b.num = 0 then JSNum.nan else jsignedInf (Q.blt Q.zero b)
  | JSNum.fin a, JSNum.pinf =>
    if a.num = 0 then JSNum.nan else jsignedInf (Q.blt Q.zero a)
  | JSNum.ninf, JSNum.fin b =>
    if b.num = 0 then JSNum.nan else jsignedInf (Q.blt b Q.zero)
  | JSNum.fin a, JSNum.ninf =>
    if a.num = 0 then JSNum.nan else jsignedInf (Q.blt a Q.zero)
  | JSNum.fin a, JSNum.fin b => JSNum.fin (Q.mul a b)

def jdiv : JSNum → JSNum → JSNum
  | JSNum.nan, _ => JSNum.nan
  | _, JSNum.nan => JSNum.nan
  | JSNum.pinf, JSNum.pinf => JSNum.nan
  | JSNum.pinf, JSNum.ninf => JSNum.nan
  | JSNum.ninf, JSNum.pinf => JSNum.nan
  | JSNum.ninf, JSNum.ninf => JSNum.nan
  | JSNum.fin _, JSNum.pinf => JSNum.fin Q.zero
  | JSNum.fin _, JSNum.ninf => JSNum.fin Q.zero
  | JSNum.pinf, JSNum.fin b => jsignedInf (Q.ble Q.zero b)
  | JSNum.ninf, JSNum.fin b => jsignedInf (Q.blt b Q.zero)
  | JSNum.fin a, JSNum.fin b =>
    if h : b.num = 0 then
      if a.num = 0 then JSNum.nan else jsignedInf (Q.blt Q.zero a)
    else JSNum.fin (Q.div a b h)

/-- `Math.min`: `NaN` if an argument is `NaN`. -/
def jmin : JSNum → JSNum → JSNum
  | JSNum.nan, _ => JSNum.nan
  | _, JSNum.nan => JSNum.nan
  | JSNum.ninf, _ => JSNum.ninf
  | _, JSNum.ninf => JSNum.ninf
  | JSNum.pinf, b => b
  | a, JSNum.pinf => a
  | JSNum.fin a, JSNum.fin b => if Q.ble a b then JSNum.fin a else JSNum.fin b

/-- `Math.max`: `NaN` if an argument is `NaN`. -/
def jmax : JSNum → JSNum → JSNum
  | JSNum.nan, _ => JSNum.nan
  | _, JSNum.nan => JSNum.nan
  | JSNum.pinf, _ => JSNum.pinf
  | _, JSNum.pinf => JSNum.pinf
  | JSNum.ninf, b => b
  | a, JSNum.ninf => a
  | JSNum.fin a, JSNum.fin b => if Q.ble a b then JSNum.fin b else JSNum.fin a

/-- `Math.abs`. -/
def jabs : JSNum → JSNum
  | JSNum.nan => JSNum.nan
  | JSNum.pinf => JSNum.pinf
  | JSNum.ninf => JSNum.pinf
  | JSNum.fin a => JSNum.fin (Q.abs a)

/-- `a < b`: false whenever an operand is `NaN`. -/
def jltB : JSNum → JSNum → Bool
  | JSNum.nan, _ => false
  | _, JSNum.nan => false
  | JSNum.ninf, JSNum.ninf => false
  | JSNum.ninf, _ => true
  | _, JSNum.ninf => false
  | JSNum.pinf, _ => false
  | _, JSNum.pinf => true
  | JSNum.fin a, JSNum.fin b => Q.blt a b

/-- `a <= b`: false whenever an operand is `NaN`. -/
def jleB : JSNum → JSNum → Bool
  | JSNum.nan, _ => false
  | _, JSNum.nan => false
  | JSNum.ninf, _ => true
  | _, JSNum.ninf => false
  | _, JSNum.pinf => true
  | JSNum.pinf, _ => false
  | JSNum.fin a, JSNum.fin b => Q.ble a b

/-- JavaScript truthiness of a number (`0` and `NaN` are falsy). -/
def jsTruthyNum : JSNum → Bool
  | JSNum.nan => false
  | JSNum.fin q => decide (q.num ≠ 0)
  | _ => true

/-- A JavaScript (JSON-like) value.  Object fields carry `Option JsonVal`:
`none` models a field whose value is `undefined`. -/
inductive JsonVal where
  | null
  | bool (b : Bool)
  | num (x : JSNum)
  | str (s : String)
  | arr (elems : List JsonVal)
  | obj (fields : List (String × Option JsonVal))

/-- The host-dependent primitives of the source, abstracted: the
transcendental `Math` functions on finite values, `Math.random`, id
generation (`LIT.generateId`, built from `Date.now` and `Math.random`),
`Date.toISOString`, IEEE number formatting and `JSON.stringify`. -/
structure Env where
  log : Q → Q
  exp : Q → Q
  log2 : Q → Q
  random : Nat → Q
  genId : Nat → String
  isoString : Nat → String
  formatNum : Q → String
  stringify : JsonVal → String

/-- `Math.log` on a `JSNum` (`log NaN = NaN`, `log Infinity = Infinity`,
`log (-Infinity) = NaN`, `log 0 = -Infinity`, `log x = NaN` for `x < 0`). -/
def jlog (env : Env) : JSNum → JSNum
  | JSNum.nan => JSNum.nan
  | JSNum.pinf => JSNum.pinf
  | JSNum.ninf => JSNum.nan
  | JSNum.fin q =>
    if Q.blt Q.zero q then JSNum.fin (env.log q)
    else if q.num = 0 then JSNum.ninf
    else JSNum.nan

/-- `Math.exp` on a `JSNum`. -/
def jexp (env : Env) : JSNum → JSNum
  | JSNum.nan => JSNum.nan
  | JSNum.pinf => JSNum.pinf
  | JSNum.ninf => JSNum.fin Q.zero
  | JSNum.fin q => JSNum.fin (env.exp q)

/-- JavaScript truthiness. -/
def JsonVal.truthy : JsonVal → Bool
  | JsonVal.null => false
  | JsonVal.bool b => b
  | JsonVal.num x => jsTruthyNum x
  | JsonVal.str s => decide (s ≠ "")
  | JsonVal.arr _ => true
  | JsonVal.obj _ => true

/-- Truthiness of a possibly-`undefined` value. -/
def truthyOpt : Option JsonVal → Bool
  | none => false
  | some v => v.truthy

/-- Property read `v[k]`: `none` for an absent field, a field holding
`undefined`, and any non-object receiver (reading a property of a string,
number, boolean or `null` never yields one of the names used here; the
`TypeError` JavaScript raises for `null` receivers is outside the model). -/
def JsonVal.getField : JsonVal → String → Option JsonVal
  | JsonVal.obj fields, k =>
    match fields.lookup k with
    | some (some v) => some v
    | _ => none
  | _, _ => none

/-- `a || b` on a possibly-`undefined` left operand. -/
def jsOrElse (a : Option JsonVal) (b : JsonVal) : JsonVal :=
  match a with
  | some v => if v.truthy then v else b
  | none => b

/-- `x || 0` for the stored impacts (`i.impact || 0` in `halfLife`). -/
def jsOrZero (x : JSNum) : JSNum := if jsTruthyNum x then x else JSNum.fin Q.zero

def JsonVal.isNull : JsonVal → Bool
  | JsonVal.null => true
  | _ => false

/-- `String(x)` / template-literal coercion.  Arrays stringify as their
elements joined with `","` (`null` elements as the empty string); plain
objects as `"[object Object]"`; numbers through the abstract formatter. -/
def jsToString (env : Env) (v : JsonVal) : String :=
  match v with
  | JsonVal.null => "null"
  | JsonVal.bool b => if b then "true" else "false"
  | JsonVal.num JSNum.nan => "NaN"
  | JsonVal.num JSNum.pinf => "Infinity"
  | JsonVal.num JSNum.ninf => "-Infinity"
  | JsonVal.num (JSNum.fin q) => env.formatNum q
  | JsonVal.str s => s
  | JsonVal.obj _ => "[object Object]"
  | JsonVal.arr xs => String.intercalate "," (xs.attach.map fun p =>
      if JsonVal.isNull p.1 then "" else jsToString env p.1)
termination_by sizeOf v
decreasing_by
  have h := List.sizeOf_lt_of_mem p.2
  simp only [JsonVal.arr.sizeOf_spec]
  omega

/-- `Array.prototype.join`'s coercion of one element (`null` and `undefined`
join as the empty string). -/
def joinElem (env : Env) (v : JsonVal) : String :=
  match v with
  | JsonVal.null => ""
  | w => jsToString env w

mutual

/-- Helper of `jsSplitWs`: accumulates the current piece (reversed). -/
def splitWsAux : List Char → List Char → List String
  | [], acc => [String.mk acc.reverse]
  | c :: cs, acc =>
    if c.isWhitespace then String.mk acc.reverse :: splitWsSkip cs
    else splitWsAux cs (c :: acc)

/-- Helper of `jsSplitWs`: consumes the rest of a whitespace run just after
a piece was emitted. -/
def splitWsSkip : List Char → List String
  | [] => [""]
  | c :: cs => if c.isWhitespace then splitWsSkip cs else splitWsAux cs [c]

end

/-- `s.split(/\s+/)`: split at maximal whitespace runs, keeping the empty
boundary pieces JavaScript produces when the string starts or ends with
whitespace (`" a ".split(/\s+/) = ["", "a", ""]`, `"".split(/\s+/) = [""]`). -/
def jsSplitWs (s : String) : List String := splitWsAux s.data []

/-! ## CoherenceField (`lit-framework.js` lines 92-172)

All three measures are finite rationals (no special values can arise), so
the fields are plain `Q`. -/

/-- `measureConsistency` (lines 113-130).  `typeof` dispatch: strings get the
distinct-word ratio (`new Set(words).size` is `List.dedup`'s length); objects
(arrays included: `typeof [] === 'object'`, `Object.keys` lists the indices)
the ratio of keys whose value is neither `undefined` nor `null`; every other
content (numbers, booleans, `null` — which fails the `!== null` guard) gets
the default `0.5`.  The string division is by `words.length ≥ 1` (a split
always yields at least one piece); the object division by `max 1 keys`. -/
def measureConsistency : JsonVal → Q
  | JsonVal.str s =>
    let words := jsSplitWs s
    Q.min Q.one (Q.qdiv (Q.ofNat words.dedup.length) (Q.ofNat words.length))
  | JsonVal.obj fields =>
    let defined := fields.filter fun kv =>
      match kv.2 with
      | some JsonVal.null => false
      | some _ => true
      | none => false
    Q.qdiv (Q.ofNat defined.length) (Q.ofNat (Nat.max 1 fields.length))
  | JsonVal.arr xs =>
    Q.qdiv (Q.ofNat (xs.filter fun v => !v.isNull).length) (Q.ofNat (Nat.max 1 xs.length))
  | _ => Qi 5 10

/-- `measureResonance` (lines 132-144): 0.2 for each of five content fields,
the first three and the fifth by truthiness, `value` by `!== undefined`. -/
def measureResonance (content : JsonVal) : Q :=
  let factor (b : Bool) : Q := if b then Qi 2 10 else Q.zero
  Q.add (Q.add (Q.add (Q.add
    (factor (truthyOpt (content.getField "metadata")))
    (factor (truthyOpt (content.getField "id"))))
    (factor (truthyOpt (content.getField "relations"))))
    (factor (content.getField "value").isSome))
    (factor (truthyOpt (content.getField "persistent")))

/-- `measureEntropy` (lines 146-165): Shannon entropy of the character
frequencies of `JSON.stringify(content)`, normalised by 8 and capped at 1.
The loop over `charFreq` is a fold over the distinct characters; each
`probability = count / total` divides by `total ≥ count ≥ 1` (when the
string is empty there are no characters and the loop body never runs). -/
def measureEntropy (env : Env) (content : JsonVal) : Q :=
  let cs := (env.stringify content).data
  let total := Q.ofNat cs.length
  let raw := cs.dedup.foldl
    (fun acc c =>
      let p := Q.qdiv (Q.ofNat (cs.count c)) total
      Q.sub acc (Q.mul p (env.log2 p)))
    Q.zero
  Q.min Q.one (Q.qdiv raw (Qi 8 1))

/-- The `CoherenceField` class: the content and the three measures computed
once by `analyze()` in the constructor. -/
structure CoherenceField where
  content : JsonVal
  consistency : Q
  resonance : Q
  entropy : Q

/-- `new CoherenceField(content)` (lines 93-111). -/
def CoherenceField.create (env : Env) (content : JsonVal) : CoherenceField :=
  CoherenceField.mk content (measureConsistency content) (measureResonance content)
    (measureEntropy env content)

/-- `get coherenceScore` (lines 167-171). -/
def CoherenceField.coherenceScore (cf : CoherenceField) : Q :=
  let optimalEntropy := Q.sub Q.one (Q.abs (Q.sub (Qi 6 10) cf.entropy))
  Q.add (Q.add (Q.mul cf.consistency (Qi 4 10)) (Q.mul cf.resonance (Qi 4 10)))
    (Q.mul optimalEntropy (Qi 2 10))

/-! ## TemporalSignature (`lit-framework.js` lines 10-46) -/

structure Interaction where
  timestamp : Nat
  itype : String
  impact : JSNum

structure TemporalSignature where
  createdAt : Nat
  lastModified : Nat
  interactions : List Interaction
  persistence : JSNum

/-- `new TemporalSignature()` at tick `now`. -/
def TemporalSignature.init (now : Nat) : TemporalSignature :=
  TemporalSignature.mk now now [] (JSNum.fin Q.zero)

/-- The signed age `now - createdAt` in milliseconds as a number. -/
def ageOf (createdAt now : Nat) : Q := Q.sub (Q.ofNat now) (Q.ofNat createdAt)

/-- `record(interaction)` followed by `updatePersistence()` (lines 18-32).
`interactionDensity = length / (age / 1000)` is a JavaScript division: at
`age = 0` it is `Infinity` (the list is never empty here), which makes
`persistence = log(1) * (1 + Infinity) = 0 * Infinity = NaN` — faithfully
reproduced by `jdiv`/`jmul`. -/
def TemporalSignature.record (env : Env) (sig : TemporalSignature) (now : Nat)
    (itype : String) (impact : JSNum) : TemporalSignature :=
  let interactions := sig.interactions ++ [Interaction.mk now itype impact]
  let age := ageOf sig.createdAt now
  let density := jdiv (JSNum.ofNat interactions.length) (JSNum.fin (Q.qdiv age (Qi 1000 1)))
  let persistence := jmul (jlog env (JSNum.fin (Q.add Q.one age)))
    (jadd (JSNum.fin Q.one) density)
  TemporalSignature.mk sig.createdAt now interactions persistence

/-- `get halfLife` (lines 34-39): `86400000 * (1 + Σ (i.impact || 0))`. -/
def TemporalSignature.halfLife (sig : TemporalSignature) : JSNum :=
  let bonus := sig.interactions.foldl (fun acc i => jadd acc (jsOrZero i.impact))
    (JSNum.fin Q.zero)
  jmul (JSNum.fin (Qi 86400000 1)) (jadd (JSNum.fin Q.one) bonus)

/-- `get temporalValue` (lines 41-45): `persistence * exp(-age / halfLife)`. -/
def TemporalSignature.temporalValue (env : Env) (sig : TemporalSignature) (now : Nat) : JSNum :=
  let age := ageOf sig.createdAt now
  let decay := jexp env (jneg (jdiv (JSNum.fin age) sig.halfLife))
  jmul sig.persistence decay

/-! ## AgentSystem (`lit-framework.js` lines 48-90) -/

/-- A capability handler: the JavaScript function, given the ambient
primitives and clock it may read plus its `context` argument.  Handlers are
modelled as pure functions of the context value; mutation of the heap
through `context.lit` is outside the model (no claim depends on it). -/
def Handler : Type := Env → Nat → JsonVal → JsonVal

/-- A `{name, handler, uses}` capability record.  `uses` is `JSNum.nan` for
a capability passed to the constructor (its record has no `uses` field, and
`undefined` behaves as `NaN` at each of the three sites reading `uses`). -/
structure Capability where
  name : String
  handler : Handler
  uses : JSNum

structure AgentSystem where
  capabilities : List Capability
  autonomy : JSNum
  intentionality : JSNum
  effectivity : JSNum

/-- `new AgentSystem(capabilities)` (lines 49-54): the scores start at 0 and
are not computed until `defineCapability`/`executeCapability` runs. -/
def AgentSystem.init (caps : List Capability) : AgentSystem :=
  AgentSystem.mk caps (JSNum.fin Q.zero) (JSNum.fin Q.zero) (JSNum.fin Q.zero)

/-- `calculateAgency()` (lines 74-85). -/
def AgentSystem.calculateAgency (env : Env) (as : AgentSystem) : AgentSystem :=
  let n := as.capabilities.length
  let autonomy := jmin (JSNum.fin Q.one) (JSNum.fin (Q.qdiv (Q.ofNat n) (Qi 10 1)))
  let totalUses := as.capabilities.foldl (fun acc c => jadd acc c.uses) (JSNum.fin Q.zero)
  let intentionality := jmin (JSNum.fin Q.one)
    (jdiv (jlog env (jadd (JSNum.fin Q.one) totalUses)) (JSNum.fin (Qi 5 1)))
  let active := (as.capabilities.filter fun c => jltB (JSNum.fin Q.zero) c.uses).length
  let effectivity := JSNum.fin (Q.qdiv (Q.ofNat active) (Q.ofNat (Nat.max 1 n)))
  AgentSystem.mk as.capabilities autonomy intentionality effectivity

/-- `defineCapability(name, handler)` (lines 56-59): pushes a record with
`uses: 0` and recomputes the agency scores. -/
def AgentSystem.defineCapability (env : Env) (as : AgentSystem) (name : String)
    (handler : Handler) : AgentSystem :=
  AgentSystem.calculateAgency env
    (AgentSystem.mk (as.capabilities ++ [Capability.mk name handler (JSNum.fin Q.zero)])
      as.autonomy as.intentionality as.effectivity)

/-- The errors the embedded operations raise by `throw`. -/
inductive CapErr where
  | capabilityNotFound (name : String)
  deriving DecidableEq

/-- `capability.uses++` applied to the first capability with the given name
(`Array.prototype.find` mutates the found record). -/
def bumpFirstUses : List Capability → String → List Capability
  | [], _ => []
  | c :: cs, name =>
    if c.name = name then
      Capability.mk c.name c.handler (jadd c.uses (JSNum.fin Q.one)) :: cs
    else c :: bumpFirstUses cs name

/-- `executeCapability(name, context)` (lines 61-72): find the capability
(first match), throw if absent, else `uses++`, run the handler, recompute
the agency scores and return the handler's result.  The state at the point
of the throw (unchanged) is paired with the error. -/
def AgentSystem.executeCapability (env : Env) (now : Nat) (as : AgentSystem)
    (name : String) (ctx : JsonVal) : AgentSystem × Except CapErr JsonVal :=
  match as.capabilities.find? fun c => c.name = name with
  | none => (as, Except.error (CapErr.capabilityNotFound name))
  | some cap =>
    let caps := bumpFirstUses as.capabilities name
    let result := cap.handler env now ctx
    let as2 := AgentSystem.calculateAgency env
      (AgentSystem.mk caps as.autonomy as.intentionality as.effectivity)
    (as2, Except.ok result)

/-- `get agencyScore` (lines 87-89). -/
def AgentSystem.agencyScore (as : AgentSystem) : JSNum :=
  jdiv (jadd (jadd as.autonomy as.intentionality) as.effectivity) (JSNum.fin (Qi 3 1))

/-! ## LIT (`lit-framework.js` lines 174-299) -/

/-- A relation entry.  `relate()` stamps `establishedAt`; relation objects
passed in a constructor config (the fusion patterns do this) have no such
field, hence the `Option`.  Only the length of `relations` feeds a formula. -/
structure Relation where
  targetId : String
  rtype : String
  establishedAt : Option Nat

structure LIT where
  id : String
  litType : String
  version : String
  content : JsonVal
  metadata : JsonVal
  coherenceField : CoherenceField
  agentSystem : AgentSystem
  temporalSignature : TemporalSignature
  relations : List Relation
  state : String

/-- A constructor config.  `none` models an absent field; the `||` defaults
of the constructor also replace present falsy values, which the mk function
reproduces.  Capabilities come as `{name, handler}` records (no `uses`). -/
structure LITConfig where
  cfgId : Option String
  cfgType : Option String
  cfgVersion : Option String
  cfgContent : Option JsonVal
  cfgMetadata : Option JsonVal
  cfgCapabilities : List (String × Handler)
  cfgRelations : List Relation

/-- `config.x || default` for string configs ("" is falsy). -/
def strOr (o : Option String) (d : String) : String :=
  match o with
  | some s => if s = "" then d else s
  | none => d

/-- `config.x || default` for value configs (falsy values replaced). -/
def valOr (o : Option JsonVal) (d : JsonVal) : JsonVal :=
  match o with
  | some v => if v.truthy then v else d
  | none => d

/-- `calculateValue()` (lines 241-253). -/
def LIT.calculateValue (env : Env) (now : Nat) (lit : LIT) : JSNum :=
  let coherence := JSNum.fin lit.coherenceField.coherenceScore
  let agency := lit.agentSystem.agencyScore
  let temporal := lit.temporalSignature.temporalValue env now
  let baseValue := jadd (jadd (jmul coherence (JSNum.fin (Qi 4 10)))
    (jmul agency (JSNum.fin (Qi 35 100)))) (jmul temporal (JSNum.fin (Qi 25 100)))
  let networkBonus := jdiv (jlog env (JSNum.fin (Q.add Q.one (Q.ofNat lit.relations.length))))
    (JSNum.fin (Qi 5 1))
  jmin (JSNum.fin Q.one) (jmul baseValue (jadd (JSNum.fin Q.one) networkBonus))

/-- The state classification of `updateState()` (lines 255-269): the
if/else-if chain on `value` (every comparison with a `NaN` value is false,
so a `NaN` value falls through to the `else`, `'transcendent'`). -/
def classifyValue (v : JSNum) : String :=
  if jltB v (JSNum.fin (Qi 2 10)) then "decaying"
  else if jltB v (JSNum.fin (Qi 4 10)) then "nascent"
  else if jltB v (JSNum.fin (Qi 6 10)) then "stable"
  else if jltB v (JSNum.fin (Qi 8 10)) then "resonant"
  else "transcendent"

/-- `updateState()` (lines 255-269). -/
def LIT.updateState (env : Env) (now : Nat) (lit : LIT) : LIT :=
  LIT.mk lit.id lit.litType lit.version lit.content lit.metadata lit.coherenceField
    lit.agentSystem lit.temporalSignature lit.relations
    (classifyValue (lit.calculateValue env now))

/-- `new LIT(config)` (lines 175-198): defaults, the three pillars, the
initial `'nascent'` state, then `updateState()`. -/
def LIT.create (env : Env) (now : Nat) (config : LITConfig) : LIT :=
  let id := strOr config.cfgId (env.genId now)
  let litType := strOr config.cfgType "generic"
  let version := strOr config.cfgVersion "1.0.0"
  let content := valOr config.cfgContent (JsonVal.obj [])
  let metadata := valOr config.cfgMetadata (JsonVal.obj [])
  let caps := config.cfgCapabilities.map fun nh => Capability.mk nh.1 nh.2 JSNum.nan
  let lit0 := LIT.mk id litType version content metadata
    (CoherenceField.create env content) (AgentSystem.init caps)
    (TemporalSignature.init now) config.cfgRelations "nascent"
  lit0.updateState env now

/-- What `interact` returns (`{litId, type, result, newValue}`; the echoed
`result: data` carries no information the claims use beyond the impact). -/
structure InteractResult where
  litId : String
  itype : String
  newValue : JSNum

/-- `interact(type, data)` (lines 207-217): record with `data.impact || 0.1`,
update the state, return the new value (computed at the same tick). -/
def LIT.interact (env : Env) (now : Nat) (lit : LIT) (itype : String)
    (impact : JSNum) : LIT × InteractResult :=
  let eff := if jsTruthyNum impact then impact else JSNum.fin (Qi 1 10)
  let sig := lit.temporalSignature.record env now itype eff
  let lit1 := LIT.mk lit.id lit.litType lit.version lit.content lit.metadata
    lit.coherenceField lit.agentSystem sig lit.relations lit.state
  let lit2 := lit1.updateState env now
  (lit2, InteractResult.mk lit.id itype (lit2.calculateValue env now))

/-- `transform(transformFn)` (lines 219-227): new content, a fresh
`CoherenceField`, an impact-0.5 record, then `updateState()`. -/
def LIT.transform (env : Env) (now : Nat) (lit : LIT) (f : JsonVal → JsonVal) : LIT :=
  let content := f lit.content
  let sig := lit.temporalSignature.record env now "transform" (JSNum.fin (Qi 5 10))
  let lit1 := LIT.mk lit.id lit.litType lit.version content lit.metadata
    (CoherenceField.create env content) lit.agentSystem sig lit.relations lit.state
  lit1.updateState env now

/-- `relate(otherLit, relationType)` (lines 229-238): push a relation, record
an impact-0.3 interaction; no `updateState`. -/
def LIT.relate (env : Env) (now : Nat) (lit : LIT) (targetId : String)
    (rtype : String) : LIT :=
  let sig := lit.temporalSignature.record env now "relate" (JSNum.fin (Qi 3 10))
  LIT.mk lit.id lit.litType lit.version lit.content lit.metadata lit.coherenceField
    lit.agentSystem sig (lit.relations ++ [Relation.mk targetId rtype (some now)]) lit.state

/-! ## LITComposer (`lit-framework.js` lines 302-341)

The registry is a JavaScript `Map` keyed by `lit.id`: an association list in
insertion order, `set` replacing in place when the key exists.  The LITs of
the registry are the heap: an operation that mutates a registered LIT
through an alias is modelled by updating its entry. -/

def Composer : Type := List (String × LIT)

/-- `Map.prototype.set`: replace in place, else append. -/
def mapSet {α : Type} : List (String × α) → String → α → List (String × α)
  | [], k, v => [(k, v)]
  | (k1, v1) :: rest, k, v =>
    if k1 = k then (k, v) :: rest else (k1, v1) :: mapSet rest k v

/-- Apply `f` to the entry at key `k`, if present (mutation of a registered
object through an alias). -/
def mapAdjust {α : Type} (c : List (String × α)) (k : String) (f : α → α) :
    List (String × α) :=
  c.map fun kv => if kv.1 = k then (kv.1, f kv.2) else kv

/-- `compose(config)` (lines 307-311). -/
def Composer.compose (env : Env) (now : Nat) (c : Composer) (config : LITConfig) :
    Composer × LIT :=
  let lit := LIT.create env now config
  (mapSet c lit.id lit, lit)

/-- `find(id)` (lines 313-315). -/
def Composer.findLIT (c : Composer) (id : String) : Option LIT :=
  List.lookup id c

/-- `getAllLITs()` (lines 321-323). -/
def Composer.getAllLITs (c : Composer) : List LIT := c.map fun kv => kv.2

/-- `findByType(type)` (lines 317-319). -/
def Composer.findByType (c : Composer) (t : String) : List LIT :=
  (Composer.getAllLITs c).filter fun lit => lit.litType = t

/-- `network(lits, relationType)` (lines 326-331): relate each LIT of the
list to the next.  The JavaScript method takes the LIT objects themselves
and mutates them; the model takes their ids and updates the registry
entries (a LIT not in the registry leaves it unchanged either way). -/
def Composer.network (env : Env) (now : Nat) (c : Composer) (ids : List String)
    (rtype : String) : Composer :=
  (ids.zip ids.tail).foldl
    (fun acc ab => mapAdjust acc ab.1 fun l => l.relate env now ab.2 rtype) c

/-- `measureNetworkCoherence()` (lines 334-340). -/
def Composer.measureNetworkCoherence (env : Env) (now : Nat) (c : Composer) : JSNum :=
  let lits := Composer.getAllLITs c
  if lits.length = 0 then JSNum.fin Q.zero
  else
    jdiv (lits.foldl (fun acc l => jadd acc (l.calculateValue env now)) (JSNum.fin Q.zero))
      (JSNum.ofNat lits.length)

/-! ## Xenial fusion engine (`xenial-fusion.js`) -/

/-- A fusion pattern (`FusionPattern`, lines 10-31).  `fusionLogic` is the
combining closure: it reads the LITs and composes the fused LIT through the
engine's composer. -/
structure FusionPattern where
  name : String
  description : String
  fusionLogic : Env → Nat → List LIT → Composer → Composer × LIT
  resonanceThreshold : Q
  usageCount : Nat

/-- `canFuse(lits)` (lines 19-25): at least two LITs and average coherence
at least the threshold (the division is by `lits.length ≥ 2`). -/
def FusionPattern.canFuse (p : FusionPattern) (lits : List LIT) : Bool :=
  if lits.length < 2 then false
  else
    let avg := Q.qdiv (lits.foldl (fun acc l => Q.add acc l.coherenceField.coherenceScore)
      Q.zero) (Q.ofNat lits.length)
    Q.ble p.resonanceThreshold avg

/-- Chained field read on a possibly-`undefined` receiver. -/
def optGetField (o : Option JsonVal) (k : String) : Option JsonVal :=
  match o with
  | some v => v.getField k
  | none => none

/-- Pattern 1, `'Harmonic Synthesis'` (lines 86-116): join the sources'
`content.knowledge || content.description || ''` with `' ⊕ '`, collect
`content.topic || content.name || 'concept'`, and compose a `'synthesis'`
LIT carrying them plus `fused-from` relations to the sources. -/
def harmonicLogic (env : Env) (now : Nat) (lits : List LIT) (c : Composer) :
    Composer × LIT :=
  let combinedKnowledge := String.intercalate " ⊕ " (lits.map fun l =>
    joinElem env (jsOrElse (l.content.getField "knowledge")
      (jsOrElse (l.content.getField "description") (JsonVal.str ""))))
  let topics := lits.map fun l =>
    jsOrElse (l.content.getField "topic") (jsOrElse (l.content.getField "name")
      (JsonVal.str "concept"))
  Composer.compose env now c (LITConfig.mk none (some "synthesis") none
    (some (JsonVal.obj [
      ("fusionType", some (JsonVal.str "harmonic-synthesis")),
      ("sourceTopics", some (JsonVal.arr topics)),
      ("synthesizedKnowledge", some (JsonVal.str combinedKnowledge)),
      ("id", some (JsonVal.str ("synthesis-" ++ toString now))),
      ("persistent", some (JsonVal.bool true)),
      ("value", some (JsonVal.num (JSNum.fin Q.one))),
      ("metadata", some (JsonVal.obj [
        ("sourceCount", some (JsonVal.num (JSNum.ofNat lits.length))),
        ("fusedAt", some (JsonVal.str (env.isoString now)))]))]))
    (some (JsonVal.obj [
      ("domain", some (JsonVal.str "emergent-epistemology")),
      ("created", some (JsonVal.str (env.isoString now))),
      ("fusionPattern", some (JsonVal.str "Harmonic Synthesis")),
      ("sourceIDs", some (JsonVal.arr (lits.map fun l => JsonVal.str l.id)))]))
    []
    (lits.map fun l => Relation.mk l.id "fused-from" none))

/-- The spread `[...processes[0].content.steps]`: an array spreads to its
elements, a string to its characters; spreading another truthy value throws
a `TypeError` in JavaScript (outside the model, yields `[]` here). -/
def spreadVal : JsonVal → List JsonVal
  | JsonVal.arr xs => xs
  | JsonVal.str s => s.data.map fun ch => JsonVal.str (String.mk [ch])
  | _ => []

/-- Pattern 2, `'Processual Integration'` (lines 119-154). -/
def processualLogic (env : Env) (now : Nat) (lits : List LIT) (c : Composer) :
    Composer × LIT :=
  let processes := lits.filter fun l =>
    l.litType = "process" || truthyOpt (l.content.getField "steps")
  let knowledge := lits.filter fun l =>
    l.litType = "knowledge" || truthyOpt (l.content.getField "knowledge")
  let steps :=
    match processes with
    | [] => [JsonVal.str "Integrate", JsonVal.str "Process", JsonVal.str "Transform"]
    | p0 :: _ =>
      match p0.content.getField "steps" with
      | some v =>
        if v.truthy then spreadVal v
        else [JsonVal.str "Integrate", JsonVal.str "Process", JsonVal.str "Transform"]
      | none => [JsonVal.str "Integrate", JsonVal.str "Process", JsonVal.str "Transform"]
  let enriched := (steps.enum.map fun si =>
    let context := knowledge[si.1 % knowledge.length]?
    let topic :=
      match context with
      | some k => jsToString env (jsOrElse (k.content.getField "topic")
          (JsonVal.str "context"))
      | none => "context"
    JsonVal.str (jsToString env si.2 ++ " [informed by: " ++ topic ++ "]"))
  Composer.compose env now c (LITConfig.mk none (some "informed-process") none
    (some (JsonVal.obj [
      ("fusionType", some (JsonVal.str "processual-integration")),
      ("name", some (JsonVal.str "Informed Process")),
      ("steps", some (JsonVal.arr enriched)),
      ("currentStep", some (JsonVal.num (JSNum.ofNat 0))),
      ("knowledgeContext", some (JsonVal.arr (knowledge.map fun k => k.content))),
      ("id", some (JsonVal.str ("informed-process-" ++ toString now))),
      ("persistent", some (JsonVal.bool true))]))
    (some (JsonVal.obj [
      ("domain", some (JsonVal.str "agential-procedural")),
      ("created", some (JsonVal.str (env.isoString now))),
      ("fusionPattern", some (JsonVal.str "Processual Integration")),
      ("sourceIDs", some (JsonVal.arr (lits.map fun l => JsonVal.str l.id)))]))
    [] [])

/-- The `generate_emergent` capability handler of pattern 3 (lines 188-200).
It reads `context.lit`; the push onto `lit.content.outputs` mutates the heap
through the alias and is outside the model. -/
def generateEmergentHandler : Handler := fun env now ctx =>
  let litContent := optGetField (ctx.getField "lit") "content"
  JsonVal.obj [
    ("id", some (JsonVal.str ("emergent-" ++ toString now))),
    ("timestamp", some (JsonVal.num (JSNum.ofNat now))),
    ("content", some (JsonVal.str ("✧ Emergent " ++
      (match optGetField litContent "medium" with
       | some v => jsToString env v
       | none => "undefined") ++ " ✧"))),
    ("noveltyScore", some (JsonVal.num (JSNum.fin
      (Q.add (Qi 7 10) (Q.mul (env.random now) (Qi 3 10)))))),
    ("fusionSignature",
      match optGetField litContent "sourceLITs" with
      | some v => some v
      | none => none)]

/-- Pattern 3, `'Creative Amplification'` (lines 157-204). -/
def creativeLogic (env : Env) (now : Nat) (lits : List LIT) (c : Composer) :
    Composer × LIT :=
  let mediums := lits.map fun l =>
    jsOrElse (l.content.getField "medium") (jsOrElse (l.content.getField "name")
      (JsonVal.str "pattern"))
  let fusedMedium := String.intercalate " × " (mediums.map (joinElem env))
  Composer.compose env now c (LITConfig.mk none (some "emergent-creative") none
    (some (JsonVal.obj [
      ("fusionType", some (JsonVal.str "creative-amplification")),
      ("medium", some (JsonVal.str fusedMedium)),
      ("description", some (JsonVal.str ("Emergent fusion of: " ++
        String.intercalate ", " (mediums.map (joinElem env))))),
      ("outputs", some (JsonVal.arr [])),
      ("sourceLITs", some (JsonVal.arr (lits.map fun l => JsonVal.str l.id))),
      ("parameters", some (JsonVal.obj [
        ("complexity", some (JsonVal.num (JSNum.fin (Qi 8 10)))),
        ("novelty", some (JsonVal.num (JSNum.fin (Qi 9 10)))),
        ("fusion_power", some (JsonVal.num (JSNum.ofNat lits.length)))])),
      ("id", some (JsonVal.str ("emergent-creative-" ++ toString now))),
      ("persistent", some (JsonVal.bool true)),
      ("value", some (JsonVal.num (JSNum.ofNat 0)))]))
    (some (JsonVal.obj [
      ("domain", some (JsonVal.str "emergent-generative")),
      ("created", some (JsonVal.str (env.isoString now))),
      ("fusionPattern", some (JsonVal.str "Creative Amplification")),
      ("sourceIDs", some (JsonVal.arr (lits.map fun l => JsonVal.str l.id)))]))
    [("generate_emergent", generateEmergentHandler)] [])

/-- The `resonate` capability handler of pattern 4 (lines 241-250). -/
def resonateHandler : Handler := fun env now _ =>
  JsonVal.obj [
    ("resonance", some (JsonVal.str "xenial")),
    ("pattern", some (JsonVal.str "transcendent")),
    ("harmonic", some (JsonVal.num (JSNum.fin
      (Q.add (Q.mul (env.random now) (Qi 5 10)) (Qi 5 10)))))]

/-- Pattern 4, `'Xenial Transcendence'` (lines 207-253). -/
def transcendenceLogic (env : Env) (now : Nat) (lits : List LIT) (c : Composer) :
    Composer × LIT :=
  let avgValue := jdiv (lits.foldl (fun acc l => jadd acc (l.calculateValue env now))
    (JSNum.fin Q.zero)) (JSNum.ofNat lits.length)
  let totalAgency := lits.foldl (fun acc l => jadd acc l.agentSystem.agencyScore)
    (JSNum.fin Q.zero)
  Composer.compose env now c (LITConfig.mk none (some "xenial-transcendence") none
    (some (JsonVal.obj [
      ("fusionType", some (JsonVal.str "xenial-transcendence")),
      ("name", some (JsonVal.str "Transcendent Pattern")),
      ("description", some (JsonVal.str
        "A higher-order coherent structure that transcends its components")),
      ("constituents", some (JsonVal.arr (lits.map fun l => JsonVal.obj [
        ("id", some (JsonVal.str l.id)),
        ("type", some (JsonVal.str l.litType)),
        ("contribution", some (JsonVal.num (l.calculateValue env now)))]))),
      ("transcendenceLevel", some (JsonVal.num (jmul avgValue (JSNum.fin (Qi 15 10))))),
      ("collectiveAgency", some (JsonVal.num totalAgency)),
      ("id", some (JsonVal.str ("transcendent-" ++ toString now))),
      ("persistent", some (JsonVal.bool true)),
      ("value", some (JsonVal.num (jmul avgValue (JSNum.fin (Qi 15 10))))),
      ("metadata", some (JsonVal.obj [
        ("constituentCount", some (JsonVal.num (JSNum.ofNat lits.length))),
        ("emergence", some (JsonVal.str "xenial"))]))]))
    (some (JsonVal.obj [
      ("domain", some (JsonVal.str "transcendent")),
      ("created", some (JsonVal.str (env.isoString now))),
      ("fusionPattern", some (JsonVal.str "Xenial Transcendence")),
      ("sourceIDs", some (JsonVal.arr (lits.map fun l => JsonVal.str l.id)))]))
    [("resonate", resonateHandler)] [])

def harmonicPattern : FusionPattern :=
  FusionPattern.mk "Harmonic Synthesis"
    "Combines related knowledge into coherent understanding" harmonicLogic (Qi 3 10) 0

def processualPattern : FusionPattern :=
  FusionPattern.mk "Processual Integration"
    "Integrates knowledge into executable processes" processualLogic (Qi 3 10) 0

def creativePattern : FusionPattern :=
  FusionPattern.mk "Creative Amplification"
    "Combines generative patterns to create novel outputs" creativeLogic (Qi 3 10) 0

def transcendencePattern : FusionPattern :=
  FusionPattern.mk "Xenial Transcendence"
    "Fuses high-coherence LITs into transcendent patterns" transcendenceLogic (Qi 3 10) 0

/-- The patterns map after `initializeDefaultPatterns()` (lines 84-254), in
registration order. -/
def defaultPatterns : List (String × FusionPattern) :=
  [("Harmonic Synthesis", harmonicPattern),
   ("Processual Integration", processualPattern),
   ("Creative Amplification", creativePattern),
   ("Xenial Transcendence", transcendencePattern)]

/-! ## EmergenceMetrics (`xenial-fusion.js` lines 33-74) -/

structure EmergenceMetrics where
  novelty : JSNum
  synergy : JSNum
  stability : JSNum
  resonance : JSNum

/-- `calculateVariance(values)` (lines 65-69) over the (finite) coherence
scores; the divisions are by `values.length`, nonzero at the call site
(`fuse` guarantees at least two LITs). -/
def coherenceVariance (values : List Q) : Q :=
  let mean := Q.qdiv (values.foldl Q.add Q.zero) (Q.ofNat values.length)
  Q.qdiv ((values.map fun v => Q.mul (Q.sub v mean) (Q.sub v mean)).foldl Q.add Q.zero)
    (Q.ofNat values.length)

/-- `EmergenceMetrics.calculate(inputLITs, fusedLIT)` (lines 41-63).  The
divisions by `inputLITs.length` and `inputComplexity` are JavaScript
divisions through `jdiv` (the callers pass at least two LITs, and
`inputComplexity ≥ 2` because `JSON.stringify` of an object is nonempty). -/
def EmergenceMetrics.calculate (env : Env) (now : Nat) (inputLITs : List LIT)
    (fusedLIT : LIT) : EmergenceMetrics :=
  let n := JSNum.ofNat inputLITs.length
  let inputComplexity := jdiv (JSNum.ofNat (inputLITs.foldl
    (fun acc l => acc + (env.stringify l.content).length) 0)) n
  let outputComplexity := JSNum.ofNat (env.stringify fusedLIT.content).length
  let novelty := jmin (JSNum.fin Q.one)
    (jdiv (jabs (jsub outputComplexity inputComplexity)) inputComplexity)
  let inputValue := jdiv (inputLITs.foldl (fun acc l => jadd acc (l.calculateValue env now))
    (JSNum.fin Q.zero)) n
  let outputValue := fusedLIT.calculateValue env now
  let synergy := jmax (JSNum.fin Q.zero)
    (jdiv (jsub outputValue inputValue) (jmax (JSNum.fin (Qi 1 10)) inputValue))
  let stability := JSNum.fin fusedLIT.coherenceField.coherenceScore
  let variance := coherenceVariance (inputLITs.map fun l => l.coherenceField.coherenceScore)
  let resonance := JSNum.fin (Q.sub Q.one (Q.min Q.one variance))
  EmergenceMetrics.mk novelty synergy stability resonance

/-- `get emergenceScore` (lines 71-73). -/
def EmergenceMetrics.emergenceScore (m : EmergenceMetrics) : JSNum :=
  jadd (jadd (jadd (jmul m.novelty (JSNum.fin (Qi 25 100)))
    (jmul m.synergy (JSNum.fin (Qi 35 100))))
    (jmul m.stability (JSNum.fin (Qi 25 100))))
    (jmul m.resonance (JSNum.fin (Qi 15 100)))

/-! ## XenialFusionEngine (`xenial-fusion.js` lines 76-385) -/

/-- One entry of `fusionHistory` (lines 321-333). -/
structure FusionRecord where
  timestamp : Nat
  patternName : String
  sourceIDs : List String
  resultID : String
  emergence : EmergenceMetrics
  score : JSNum

/-- The engine's mutable state: the composer it shares with the caller, the
pattern map and the fusion history. -/
structure EngineState where
  composer : Composer
  patterns : List (String × FusionPattern)
  history : List FusionRecord

/-- `new XenialFusionEngine(litComposer)` (lines 77-82). -/
def EngineState.init (c : Composer) : EngineState :=
  EngineState.mk c defaultPatterns []

/-- `registerPattern(pattern)` (lines 256-258). -/
def EngineState.registerPattern (s : EngineState) (p : FusionPattern) : EngineState :=
  EngineState.mk s.composer (mapSet s.patterns p.name p) s.history

/-- `selectFusionPattern(lits)` (lines 260-282): high average value takes
`'Xenial Transcendence'`; all-creative types `'Creative Amplification'`;
a process/knowledge mix `'Processual Integration'`; else
`'Harmonic Synthesis'`.  (`avgValue > 0.7` is false when the average is
`NaN`, and `types.every` is true for the empty list, exactly as in
JavaScript.) -/
def selectFusionPattern (env : Env) (now : Nat) (patterns : List (String × FusionPattern))
    (lits : List LIT) : Option FusionPattern :=
  let types := lits.map fun l => l.litType
  let avgValue := jdiv (lits.foldl (fun acc l => jadd acc (l.calculateValue env now))
    (JSNum.fin Q.zero)) (JSNum.ofNat lits.length)
  if jltB (JSNum.fin (Qi 7 10)) avgValue then
    List.lookup "Xenial Transcendence" patterns
  else if types.all fun t => t = "creative" || t = "emergent-creative" then
    List.lookup "Creative Amplification" patterns
  else if types.contains "process" && types.contains "knowledge" then
    List.lookup "Processual Integration" patterns
  else
    List.lookup "Harmonic Synthesis" patterns

/-- The three `throw`s of `fuse` (lines 284-303). -/
inductive FuseErr where
  | tooFewLits
  | patternNotFound (name : Option String)
  | insufficientCoherence
  deriving DecidableEq

/-- What `fuse` returns (lines 337-341). -/
structure FuseResult where
  fusedLIT : LIT
  emergence : EmergenceMetrics
  patternName : String

/-- `fuse(litIDs, patternName)` (lines 284-342), paired with the state at
the point of each `throw` (all three `throw`s run before any mutation) or
at the end.  The pipeline after the checks: bump the pattern's
`usageCount`, run its `fusionLogic` (which composes and registers the fused
LIT), compute the emergence metrics, boost the fused LIT with an
`interact('fusion', {impact: emergenceScore})` (an alias into the registry,
so the entry is updated), relate every source LIT to the fused one
(`'fused-into'`, again through registry aliases), and append the history
record.  `patternName` is tested for truthiness, so an empty-string name
also selects automatically. -/
def EngineState.fuse (env : Env) (now : Nat) (s : EngineState) (litIDs : List String)
    (patternName : Option String) : EngineState × Except FuseErr FuseResult :=
  let lits := litIDs.filterMap fun id => Composer.findLIT s.composer id
  if lits.length < 2 then (s, Except.error FuseErr.tooFewLits)
  else
    let chosen :=
      match patternName with
      | some n => if n = "" then selectFusionPattern env now s.patterns lits
                  else List.lookup n s.patterns
      | none => selectFusionPattern env now s.patterns lits
    match chosen with
    | none => (s, Except.error (FuseErr.patternNotFound patternName))
    | some pat =>
      if pat.canFuse lits then
        let patterns2 := mapSet s.patterns pat.name
          (FusionPattern.mk pat.name pat.description pat.fusionLogic
            pat.resonanceThreshold (pat.usageCount + 1))
        let cl := pat.fusionLogic env now lits s.composer
        let fused0 := cl.2
        let emergence := EmergenceMetrics.calculate env now lits fused0
        let boosted := (fused0.interact env now "fusion" emergence.emergenceScore).1
        let composer2 := mapSet cl.1 fused0.id boosted
        let composer3 := lits.foldl
          (fun acc src => mapAdjust acc src.id fun l => l.relate env now boosted.id "fused-into")
          composer2
        let record := FusionRecord.mk now pat.name litIDs boosted.id emergence
          emergence.emergenceScore
        (EngineState.mk composer3 patterns2 (s.history ++ [record]),
          Except.ok (FuseResult.mk boosted emergence pat.name))
      else (s, Except.error FuseErr.insufficientCoherence)

/-! ## Semantics of `Q`: the bridge to `ℚ` -/

lemma Q.den_rat_pos (a : Q) : (0 : ℚ) < (a.den : ℚ) := by
  exact_mod_cast a.den_pos

lemma Q.den_rat_ne (a : Q) : (a.den : ℚ) ≠ 0 := ne_of_gt a.den_rat_pos

lemma Q.toRat_zero : Q.zero.toRat = 0 := by
  simp [Q.toRat, Q.zero]

lemma Q.toRat_one : Q.one.toRat = 1 := by
  simp [Q.toRat, Q.one]

lemma Q.toRat_ofNat (n : Nat) : (Q.ofNat n).toRat = (n : ℚ) := by
  simp [Q.toRat, Q.ofNat]

lemma Q.toRat_Qi (n d : Int) (h : 0 < d) : (Qi n d).toRat = (n : ℚ) / (d : ℚ) := by
  simp [Qi, h, Q.toRat]

lemma Q.ble_iff (a b : Q) : Q.ble a b = true ↔ a.toRat ≤ b.toRat := by
  rw [Q.ble, decide_eq_true_iff, Q.toRat, Q.toRat,
    div_le_div_iff a.den_rat_pos b.den_rat_pos]
  exact_mod_cast Iff.rfl

lemma Q.blt_iff (a b : Q) : Q.blt a b = true ↔ a.toRat < b.toRat := by
  rw [Q.blt, decide_eq_true_iff, Q.toRat, Q.toRat,
    div_lt_div_iff a.den_rat_pos b.den_rat_pos]
  exact_mod_cast Iff.rfl

lemma Q.toRat_min (a b : Q) : (Q.min a b).toRat = Min.min a.toRat b.toRat := by
  rw [Q.min]
  rcases hb : Q.ble a b with _ | _
  · have : ¬ a.toRat ≤ b.toRat := fun hc => by simp [(Q.ble_iff a b).mpr hc] at hb
    simp [min_eq_right (le_of_not_le this)]
  · simp [min_eq_left ((Q.ble_iff a b).mp hb)]

lemma Q.toRat_div (a b : Q) (h : b.num ≠ 0) : (Q.div a b h).toRat = a.toRat / b.toRat := by
  have h1 : (a.den : ℚ) ≠ 0 := a.den_rat_ne
  have h2 : (b.den : ℚ) ≠ 0 := b.den_rat_ne
  have h3 : (b.num : ℚ) ≠ 0 := by exact_mod_cast h
  rw [Q.div]
  by_cases hp : 0 < b.num
  · simp only [hp, dite_true]
    rw [Q.toRat, Q.toRat, Q.toRat]
    push_cast
    field_simp
  · simp only [hp, dite_false]
    rw [Q.toRat, Q.toRat, Q.toRat]
    push_cast
    field_simp

lemma Q.toRat_qdiv (a b : Q) : (Q.qdiv a b).toRat = a.toRat / b.toRat := by
  by_cases hb : b.num = 0
  · have hb0 : b.toRat = 0 := by simp [Q.toRat, hb]
    simp [Q.qdiv, hb, hb0, Q.toRat_zero]
  · simp [Q.qdiv, hb, Q.toRat_div]

/-! ## A concrete environment and concrete objects for witnesses -/

/-- A concrete instance of the abstract host primitives (used only to
evaluate the embedding at concrete inputs; no theorem below depends on
which functions are chosen here). -/
def env0 : Env :=
  Env.mk (fun _ => Q.zero) (fun _ => Q.one) (fun _ => Q.zero) (fun _ => Q.zero)
    (fun n => "LIT-" ++ toString n) (fun n => "iso-" ++ toString n)
    (fun _ => "num") (fun _ => "x")

def nullHandler : Handler := fun _ _ _ => JsonVal.null

def cfgA : LITConfig :=
  LITConfig.mk (some "a") (some "knowledge") none
    (some (JsonVal.obj [("knowledge", some (JsonVal.str "K1"))])) none [] []

def cfgB : LITConfig :=
  LITConfig.mk (some "b") (some "knowledge") none
    (some (JsonVal.obj [("knowledge", some (JsonVal.str "K2"))])) none [] []

/-- A registry holding two knowledge LITs with ids `"a"` and `"b"`. -/
def demoComposer : Composer :=
  (Composer.compose env0 2 (Composer.compose env0 1 [] cfgA).1 cfgB).1

def demoEngine : EngineState := EngineState.init demoComposer

/-- `.error e ↦ some e` (a decidable projection of an `Except`). -/
def errOf {e a : Type} : Except e a → Option e
  | Except.error err => some err
  | Except.ok _ => none

/-! ## C3: fusion requires two resolved inputs -/

/-- C3: for every call `fuse(litIDs, patternName)` in which fewer than two
of the given IDs resolve to LITs registered in the composer, `fuse` throws
(`'Fusion requires at least 2 LITs'`, here `FuseErr.tooFewLits`) and the
state — in particular the registry — is unchanged: no fused LIT is
created. -/
theorem C3_fuse_requires_two_lits (env : Env) (now : Nat) (s : EngineState)
    (litIDs : List String) (patternName : Option String)
    (h : (litIDs.filterMap fun id => Composer.findLIT s.composer id).length < 2) :
    EngineState.fuse env now s litIDs patternName =
      (s, Except.error FuseErr.tooFewLits) := by
  rw [EngineState.fuse.eq_def]
  simp only [h, if_pos]

/-- C3 witness: with an empty registry no id resolves, so fusing `["a"]`
(indeed any id list) reports `tooFewLits` and leaves the engine state
unchanged. -/
theorem C3_witness :
    EngineState.fuse env0 0 (EngineState.init []) ["a"] none =
      (EngineState.init [], Except.error FuseErr.tooFewLits) :=
  C3_fuse_requires_two_lits env0 0 (EngineState.init []) ["a"] none (by decide)

/-! ## C5: error atomicity -/

/-- C5: whenever `executeCapability` or `fuse` raises an error, the
observable state is unchanged: the agent system (so every `uses` counter),
and the whole engine state (registry, patterns, history — so no new LIT, no
relation added to a source LIT, nothing appended to `fusionHistory`).  This
holds because every `throw` in the source runs before the first mutation. -/
theorem C5_error_atomicity (env : Env) (now : Nat) :
    (∀ (as : AgentSystem) (name : String) (ctx : JsonVal) (as2 : AgentSystem)
      (e : CapErr), AgentSystem.executeCapability env now as name ctx =
        (as2, Except.error e) → as2 = as) ∧
    (∀ (s : EngineState) (litIDs : List String) (pn : Option String)
      (s2 : EngineState) (e : FuseErr),
      EngineState.fuse env now s litIDs pn = (s2, Except.error e) → s2 = s) := by
  constructor
  · intro as name ctx as2 e h
    rw [AgentSystem.executeCapability] at h
    rcases hf : as.capabilities.find? fun c => c.name = name with _ | cap
    · rw [hf] at h
      exact (Prod.mk.injEq .. ▸ h).1.symm ▸ rfl
    · rw [hf] at h
      simp at h
  · intro s litIDs pn s2 e h
    rw [EngineState.fuse.eq_def] at h
    by_cases h2 : (litIDs.filterMap fun id => Composer.findLIT s.composer id).length < 2
    · simp only [h2, if_pos] at h
      exact ((Prod.mk.injEq .. ▸ h).1).symm
    · simp only [h2, if_neg, if_false] at h
      rcases hc : (match pn with
        | some n => if n = "" then selectFusionPattern env now s.patterns
            (litIDs.filterMap fun id => Composer.findLIT s.composer id)
          else List.lookup n s.patterns
        | none => selectFusionPattern env now s.patterns
            (litIDs.filterMap fun id => Composer.findLIT s.composer id)) with _ | pat
      · rw [hc] at h
        exact ((Prod.mk.injEq .. ▸ h).1).symm
      · rw [hc] at h
        by_cases hcf : pat.canFuse (litIDs.filterMap fun id => Composer.findLIT s.composer id)
        · simp only [hcf, if_pos] at h
          simp at h
        · simp only [hcf, if_neg, if_false] at h
          exact ((Prod.mk.injEq .. ▸ h).1).symm

/-- C5 witness: a failing `executeCapability` on an empty agent system and a
failing `fuse` on an empty registry both leave their state unchanged. -/
theorem C5_witness :
    (AgentSystem.executeCapability env0 0 (AgentSystem.init []) "x" JsonVal.null).1 =
      AgentSystem.init [] ∧
    (EngineState.fuse env0 0 (EngineState.init []) [] none).1 = EngineState.init [] :=
  And.intro
    ((C5_error_atomicity env0 0).1 (AgentSystem.init []) "x" JsonVal.null
      (AgentSystem.executeCapability env0 0 (AgentSystem.init []) "x" JsonVal.null).1
      (CapErr.capabilityNotFound "x") rfl)
    ((C5_error_atomicity env0 0).2 (EngineState.init []) [] none
      (EngineState.fuse env0 0 (EngineState.init []) [] none).1 FuseErr.tooFewLits rfl)

/-! ## C4: executeCapability's contract -/

lemma find_none_iff (caps : List Capability) (name : String) :
    (caps.find? fun c => c.name = name) = none ↔ ∀ c ∈ caps, c.name ≠ name := by
  rw [List.find?_eq_none]
  constructor
  · intro h c hc
    have := h c hc
    simpa using this
  · intro h c hc
    simpa using h c hc

lemma find_some_split (caps : List Capability) (name : String) (cap : Capability)
    (h : (caps.find? fun c => c.name = name) = some cap) :
    cap.name = name ∧ ∃ pre post, caps = pre ++ cap :: post ∧
      (∀ c ∈ pre, c.name ≠ name) ∧
      bumpFirstUses caps name =
        pre ++ Capability.mk cap.name cap.handler (jadd cap.uses (JSNum.fin Q.one)) :: post := by
  induction caps with
  | nil => simp at h
  | cons c cs ih =>
    by_cases hc : c.name = name
    · rw [List.find?_cons_of_pos _ (by simpa using hc)] at h
      injection h with h2
      subst h2
      exact ⟨hc, [], cs, rfl, by simp, by simp [bumpFirstUses, hc]⟩
    · rw [List.find?_cons_of_neg _ (by simpa using hc)] at h
      obtain ⟨hname, pre, post, hsplit, hpre, hbump⟩ := ih h
      refine ⟨hname, c :: pre, post, by simp [hsplit], ?_,
        by simp [bumpFirstUses, hc, hbump]⟩
      intro x hx
      cases hx with
      | head => exact hc
      | tail _ hx2 => exact hpre _ hx2

/-- C4: for every `AgentSystem` and every `name`, `executeCapability(name,
context)` throws `'Capability "<name>" not found'` exactly when no
capability with that name is registered; otherwise — the found capability
being the first with that name — it increments that capability's `uses`
counter by one (`uses + 1` in JavaScript arithmetic: a constructor-passed
capability has an `undefined` counter, which `++` turns into `NaN`),
recomputes the agency sub-scores by `calculateAgency`, and returns the
result of the capability's handler applied to the context. -/
theorem C4_executeCapability_contract (env : Env) (now : Nat) (as : AgentSystem)
    (name : String) (ctx : JsonVal) :
    ((AgentSystem.executeCapability env now as name ctx).2 =
        Except.error (CapErr.capabilityNotFound name) ↔
      ∀ c ∈ as.capabilities, c.name ≠ name) ∧
    (∀ cap, (as.capabilities.find? fun c => c.name = name) = some cap →
      (∃ pre post, as.capabilities = pre ++ cap :: post ∧ (∀ c ∈ pre, c.name ≠ name) ∧
        AgentSystem.executeCapability env now as name ctx =
          (AgentSystem.calculateAgency env (AgentSystem.mk
            (pre ++ Capability.mk cap.name cap.handler
              (jadd cap.uses (JSNum.fin Q.one)) :: post)
            as.autonomy as.intentionality as.effectivity),
           Except.ok (cap.handler env now ctx)))) := by
  constructor
  · constructor
    · intro h
      rcases hf : as.capabilities.find? fun c => c.name = name with _ | cap
      · exact (find_none_iff _ _).mp hf
      · rw [AgentSystem.executeCapability, hf] at h
        simp at h
    · intro h
      rw [AgentSystem.executeCapability, (find_none_iff _ _).mpr h]
  · intro cap hf
    obtain ⟨hname, pre, post, hsplit, hpre, hbump⟩ := find_some_split _ _ _ hf
    refine ⟨pre, post, hsplit, hpre, ?_⟩
    rw [AgentSystem.executeCapability, hf, hbump]

/-- C4 witness: on a system with one capability `"go"` (uses counter 0) the
call returns the handler's result and recomputes the scores over the bumped
list; on the empty system it reports `capability "go" not found`. -/
theorem C4_witness :
    ((AgentSystem.executeCapability env0 0 (AgentSystem.init []) "go" JsonVal.null).2 =
        Except.error (CapErr.capabilityNotFound "go") ↔
      ∀ c ∈ (AgentSystem.init []).capabilities, c.name ≠ "go") ∧
    (∃ pre post,
      (AgentSystem.init [Capability.mk "go" nullHandler (JSNum.fin Q.zero)]).capabilities =
        pre ++ Capability.mk "go" nullHandler (JSNum.fin Q.zero) :: post ∧
      (∀ c ∈ pre, c.name ≠ "go") ∧
      AgentSystem.executeCapability env0 0
          (AgentSystem.init [Capability.mk "go" nullHandler (JSNum.fin Q.zero)]) "go"
          JsonVal.null =
        (AgentSystem.calculateAgency env0 (AgentSystem.mk
          (pre ++ Capability.mk "go" nullHandler
            (jadd (JSNum.fin Q.zero) (JSNum.fin Q.one)) :: post)
          (AgentSystem.init [Capability.mk "go" nullHandler (JSNum.fin Q.zero)]).autonomy
          (AgentSystem.init [Capability.mk "go" nullHandler (JSNum.fin Q.zero)]).intentionality
          (AgentSystem.init [Capability.mk "go" nullHandler (JSNum.fin Q.zero)]).effectivity),
         Except.ok (nullHandler env0 0 JsonVal.null))) :=
  And.intro
    (C4_executeCapability_contract env0 0 (AgentSystem.init []) "go" JsonVal.null).1
    ((C4_executeCapability_contract env0 0
      (AgentSystem.init [Capability.mk "go" nullHandler (JSNum.fin Q.zero)]) "go"
      JsonVal.null).2 (Capability.mk "go" nullHandler (JSNum.fin Q.zero)) rfl)

/-! ## C1: the error conditions of the public interface -/

/-- C1 (amended): every error raised by the embedded operations comes from
one of the precondition checks — `executeCapability`'s capability lookup,
and `fuse`'s three checks: fewer than two resolved inputs, fusion-pattern
lookup failing, and the selected pattern's coherence threshold.  The LIT
methods and the other composer methods throw nothing (they are total
functions of the embedding).  The claim's original two-error list is
refuted by `C1_counterexample`. -/
theorem C1_error_conditions (env : Env) (now : Nat) :
    (∀ (as : AgentSystem) (name : String) (ctx : JsonVal) (as2 : AgentSystem)
      (e : CapErr), AgentSystem.executeCapability env now as name ctx =
        (as2, Except.error e) →
      e = CapErr.capabilityNotFound name ∧ ∀ c ∈ as.capabilities, c.name ≠ name) ∧
    (∀ (s : EngineState) (litIDs : List String) (pn : Option String)
      (s2 : EngineState) (e : FuseErr),
      EngineState.fuse env now s litIDs pn = (s2, Except.error e) →
      (e = FuseErr.tooFewLits ∧
        (litIDs.filterMap fun id => Composer.findLIT s.composer id).length < 2) ∨
      e = FuseErr.patternNotFound pn ∨ e = FuseErr.insufficientCoherence) := by
  constructor
  · intro as name ctx as2 e h
    rw [AgentSystem.executeCapability] at h
    rcases hf : as.capabilities.find? fun c => c.name = name with _ | cap
    · rw [hf] at h
      exact ⟨(Except.error.inj (Prod.mk.inj h).2).symm, (find_none_iff _ _).mp hf⟩
    · rw [hf] at h
      simp at h
  · intro s litIDs pn s2 e h
    rw [EngineState.fuse.eq_def] at h
    by_cases h2 : (litIDs.filterMap fun id => Composer.findLIT s.composer id).length < 2
    · simp only [h2, if_pos] at h
      exact Or.inl ⟨(Except.error.inj (Prod.mk.inj h).2).symm, h2⟩
    · simp only [h2, if_neg, if_false] at h
      rcases hc : (match pn with
        | some n => if n = "" then selectFusionPattern env now s.patterns
            (litIDs.filterMap fun id => Composer.findLIT s.composer id)
          else List.lookup n s.patterns
        | none => selectFusionPattern env now s.patterns
            (litIDs.filterMap fun id => Composer.findLIT s.composer id)) with _ | pat
      · rw [hc] at h
        exact Or.inr (Or.inl (Except.error.inj (Prod.mk.inj h).2).symm)
      · rw [hc] at h
        by_cases hcf : pat.canFuse (litIDs.filterMap fun id => Composer.findLIT s.composer id)
        · simp only [hcf, if_pos] at h
          simp at h
        · simp only [hcf, if_neg, if_false] at h
          exact Or.inr (Or.inr (Except.error.inj (Prod.mk.inj h).2).symm)

/-- C1 counterexample, refuting the claim as stated: with two LITs resolved
(so the "fewer than two inputs" check passes) and an unregistered explicit
pattern name, `fuse` still throws — `'Fusion pattern "Nope" not found'` —
an error that is neither a capability-lookup failure (those are `CapErr`,
raised only by `executeCapability`) nor the fewer-than-two-inputs error. -/
theorem C1_counterexample :
    errOf (EngineState.fuse env0 10 demoEngine ["a", "b"] (some "Nope")).2 =
      some (FuseErr.patternNotFound (some "Nope")) ∧
    (["a", "b"].filterMap fun id => Composer.findLIT demoEngine.composer id).length = 2 ∧
    FuseErr.patternNotFound (some "Nope") ≠ FuseErr.tooFewLits :=
  ⟨rfl, rfl, by decide⟩

/-- C1 witness: the amended theorem applied to a failing capability call
(empty system) and a failing fusion (empty registry). -/
theorem C1_witness :
    (CapErr.capabilityNotFound "x" = CapErr.capabilityNotFound "x" ∧
      ∀ c ∈ (AgentSystem.init []).capabilities, c.name ≠ "x") ∧
    ((FuseErr.tooFewLits = FuseErr.tooFewLits ∧
      ((["a"] : List String).filterMap fun id =>
        Composer.findLIT (EngineState.init []).composer id).length < 2) ∨
      FuseErr.tooFewLits = FuseErr.patternNotFound none ∨
      FuseErr.tooFewLits = FuseErr.insufficientCoherence) :=
  And.intro
    ((C1_error_conditions env0 0).1 (AgentSystem.init []) "x" JsonVal.null
      (AgentSystem.executeCapability env0 0 (AgentSystem.init []) "x" JsonVal.null).1
      (CapErr.capabilityNotFound "x") rfl)
    ((C1_error_conditions env0 0).2 (EngineState.init []) ["a"] none
      (EngineState.fuse env0 0 (EngineState.init []) ["a"] none).1
      FuseErr.tooFewLits rfl)

/-! ## C2: the documented numeric ranges (a code bug)

The constructor stores `config.capabilities` as given; only
`defineCapability` initialises `uses: 0`.  Executing a constructor-passed
capability therefore runs `undefined++`, which makes `uses`, the total-use
sum, `intentionality`, `agencyScore` and `calculateValue` all `NaN` —
outside `[0, 1]`.  (The repository's own demo, `demonstrateLITs` in
`lit-examples.js`, takes exactly this path.) -/

def capCfg : LITConfig :=
  LITConfig.mk (some "c") none none none none [("query", nullHandler)] []

def capLit : LIT := LIT.create env0 0 capCfg

def capExec : AgentSystem × Except CapErr JsonVal :=
  AgentSystem.executeCapability env0 1 capLit.agentSystem "query" JsonVal.null

/-- C2 (code bug, evaluated at the failing input): constructing a LIT with a
config capability and executing that capability drives the agency score and
`calculateValue()` to `NaN`, outside the documented `[0, 1]` range; the
`uses` counter was `undefined` (`NaN`-behaved) from construction. -/
theorem C2_range_bug_eval :
    capLit.agentSystem.capabilities.map (fun c => c.uses.isNan) = [true] ∧
    capExec.1.intentionality.isNan = true ∧
    capExec.1.agencyScore.isNan = true ∧
    capExec.1.agencyScore.inUnit = false ∧
    ((LIT.mk capLit.id capLit.litType capLit.version capLit.content capLit.metadata
      capLit.coherenceField capExec.1 capLit.temporalSignature capLit.relations
      capLit.state).calculateValue env0 1).isNan = true := by decide

/-! ## C10: state classification -/

/-- The classification of the claim's table, read over the rationals. -/
def classifySpec (v : ℚ) : String :=
  if v < 1/5 then "decaying"
  else if 1/5 ≤ v ∧ v < 2/5 then "nascent"
  else if 2/5 ≤ v ∧ v < 3/5 then "stable"
  else if 3/5 ≤ v ∧ v < 4/5 then "resonant"
  else "transcendent"

def simpleLit : LIT := LIT.create env0 5 (LITConfig.mk (some "s") none none none none [] [])

/-- The LIT after an interaction in the same millisecond as its creation:
`interactionDensity` divides by zero, `persistence` becomes `NaN`, and so
does `calculateValue`. -/
def nanLit : LIT := (simpleLit.interact env0 5 "ping" (JSNum.fin Q.one)).1

/-- C10 counterexample, refuting the claim as stated: `nanLit`'s value is
`NaN`, so none of the claim's five threshold conditions holds — in
particular not `v ≥ 0.8` — yet `updateState` has set the state to
`'transcendent'` (the `else` branch). -/
theorem C10_counterexample :
    nanLit.state = "transcendent" ∧
    (nanLit.calculateValue env0 5).isNan = true ∧
    jleB (JSNum.fin (Qi 8 10)) (nanLit.calculateValue env0 5) = false ∧
    jltB (nanLit.calculateValue env0 5) (JSNum.fin (Qi 8 10)) = false := by decide

lemma classify_fin (q : Q) : classifyValue (JSNum.fin q) = classifySpec q.toRat := by
  have e2 : (Qi 2 10).toRat = 1/5 := by rw [Q.toRat_Qi _ _ (by decide)]; norm_num
  have e4 : (Qi 4 10).toRat = 2/5 := by rw [Q.toRat_Qi _ _ (by decide)]; norm_num
  have e6 : (Qi 6 10).toRat = 3/5 := by rw [Q.toRat_Qi _ _ (by decide)]; norm_num
  have e8 : (Qi 8 10).toRat = 4/5 := by rw [Q.toRat_Qi _ _ (by decide)]; norm_num
  have bt : ∀ (c : Q) (r : ℚ), c.toRat = r → (Q.blt q c = true ↔ q.toRat < r) := by
    intro c r hc
    rw [Q.blt_iff, hc]
  simp only [classifyValue, classifySpec, jltB, bt _ _ e2, bt _ _ e4, bt _ _ e6,
    bt _ _ e8]
  by_cases h1 : q.toRat < 1/5
  · rw [if_pos h1, if_pos h1]
  · rw [if_neg h1, if_neg h1]
    by_cases h2 : q.toRat < 2/5
    · rw [if_pos h2, if_pos ⟨le_of_not_lt h1, h2⟩]
    · rw [if_neg h2, if_neg (fun hc : 1/5 ≤ q.toRat ∧ q.toRat < 2/5 => h2 hc.2)]
      by_cases h3 : q.toRat < 3/5
      · rw [if_pos h3, if_pos ⟨le_of_not_lt h2, h3⟩]
      · rw [if_neg h3, if_neg (fun hc : 2/5 ≤ q.toRat ∧ q.toRat < 3/5 => h3 hc.2)]
        by_cases h4 : q.toRat < 4/5
        · rw [if_pos h4, if_pos ⟨le_of_not_lt h3, h4⟩]
        · rw [if_neg h4, if_neg (fun hc : 3/5 ≤ q.toRat ∧ q.toRat < 4/5 => h4 hc.2)]

/-- C10 (amended): after construction and after every `interact` or
`transform`, the state is `classifyValue` of `calculateValue` at that
moment; on every finite value the classification is exactly the claim's
threshold table (`decaying` below 0.2, `nascent` in `[0.2, 0.4)`, `stable`
in `[0.4, 0.6)`, `resonant` in `[0.6, 0.8)`, `transcendent` from 0.8); and
the state is always one of the five names.  The amendment
(`C10_counterexample`): a `NaN` value — reachable, see C2 — satisfies none
of the claim's conditions but lands in the `else` branch, `'transcendent'`. -/
theorem C10_state_classification (env : Env) (now : Nat) (config : LITConfig)
    (lit : LIT) (itype : String) (impact : JSNum) (f : JsonVal → JsonVal) :
    (LIT.create env now config).state =
      classifyValue ((LIT.create env now config).calculateValue env now) ∧
    ((lit.interact env now itype impact).1).state =
      classifyValue (((lit.interact env now itype impact).1).calculateValue env now) ∧
    (lit.transform env now f).state =
      classifyValue ((lit.transform env now f).calculateValue env now) ∧
    (∀ q : Q, classifyValue (JSNum.fin q) = classifySpec q.toRat) ∧
    (∀ v : JSNum, classifyValue v ∈
      ["decaying", "nascent", "stable", "resonant", "transcendent"]) := by
  refine ⟨rfl, rfl, rfl, classify_fin, ?_⟩
  intro v
  rw [classifyValue]
  split_ifs <;> simp

/-! ## C7: measureConsistency's formulas -/

/-- C7: on a string content, `measureConsistency` is the set-based
uniqueness ratio `min(1, u / w)` where `w` counts the pieces of the
whitespace split and `u` the distinct ones (`new Set(words).size`, here the
`Finset` of the pieces); on an object content it is the number of keys with
non-`null`, non-`undefined` values over `max(1, keys)`; arrays are objects
whose keys are the indices (`typeof [] === 'object'`), so the same ratio
over the elements. -/
theorem C7_consistency_formula (s : String)
    (fields : List (String × Option JsonVal)) (xs : List JsonVal) :
    (measureConsistency (JsonVal.str s)).toRat =
      Min.min 1 (((jsSplitWs s).toFinset.card : ℚ) / ((jsSplitWs s).length : ℚ)) ∧
    (measureConsistency (JsonVal.obj fields)).toRat =
      ((fields.countP fun kv => kv.2.elim false fun v => !v.isNull : ℕ) : ℚ) /
        ((Nat.max 1 fields.length : ℕ) : ℚ) ∧
    (measureConsistency (JsonVal.arr xs)).toRat =
      ((xs.countP fun v => !v.isNull : ℕ) : ℚ) / ((Nat.max 1 xs.length : ℕ) : ℚ) := by
  refine ⟨?_, ?_, ?_⟩
  · show (Q.min Q.one (Q.qdiv (Q.ofNat (jsSplitWs s).dedup.length)
      (Q.ofNat (jsSplitWs s).length))).toRat = _
    rw [Q.toRat_min, Q.toRat_one, Q.toRat_qdiv, Q.toRat_ofNat, Q.toRat_ofNat,
      List.card_toFinset]
  · show (Q.qdiv (Q.ofNat (fields.filter fun kv =>
        match kv.2 with
        | some JsonVal.null => false
        | some _ => true
        | none => false).length)
      (Q.ofNat (Nat.max 1 fields.length))).toRat = _
    rw [Q.toRat_qdiv, Q.toRat_ofNat, Q.toRat_ofNat, List.countP_eq_length_filter]
    have hp : (fun kv : String × Option JsonVal =>
        kv.2.elim false fun v => !v.isNull) = (fun kv =>
        match kv.2 with
        | some JsonVal.null => false
        | some _ => true
        | none => false) := by
      funext kv
      rcases kv.2 with _ | v
      · rfl
      · rcases v <;> rfl
    rw [hp]
  · show (Q.qdiv (Q.ofNat (xs.filter fun v => !v.isNull).length)
      (Q.ofNat (Nat.max 1 xs.length))).toRat = _
    rw [Q.toRat_qdiv, Q.toRat_ofNat, Q.toRat_ofNat, List.countP_eq_length_filter]

/-! ## C8: the composer registry -/

lemma lookup_mapSet_self {α : Type} (c : List (String × α)) (k : String) (v : α) :
    List.lookup k (mapSet c k v) = some v := by
  induction c with
  | nil => simp [mapSet, List.lookup]
  | cons kv rest ih =>
    by_cases h : kv.1 = k
    · simp [mapSet, h, List.lookup]
    · have hne : (k == kv.1) = false := by
        simp only [beq_eq_false_iff_ne, ne_eq]
        exact fun hh => h hh.symm
      simp [mapSet, h, List.lookup, hne, ih]

lemma mem_values_mapSet {α : Type} (c : List (String × α)) (k : String) (v : α) :
    v ∈ (mapSet c k v).map Prod.snd := by
  induction c with
  | nil => simp [mapSet]
  | cons kv rest ih =>
    by_cases h : kv.1 = k
    · simp [mapSet, h]
    · simp only [mapSet, h, if_false, List.map_cons, List.mem_cons]
      exact Or.inr ih

lemma mapAdjust_keys {α : Type} (c : List (String × α)) (k : String) (f : α → α) :
    (mapAdjust c k f).map Prod.fst = c.map Prod.fst := by
  unfold mapAdjust
  rw [List.map_map]
  apply List.map_congr_left
  intro kv _
  by_cases h : kv.1 = k <;> simp [h, Function.comp]

/-- C8: the registry is a map keyed by the LIT's id.  Immediately after
`lit = compose(config)`: `find(lit.id)` returns that LIT, `getAllLITs()`
includes it, `findByType(lit.type)` includes it.  The only other operation
that writes the registry at all, `network`, changes no key (it only mutates
registered LITs' relations); `find`, `findByType`, `getAllLITs` and
`measureNetworkCoherence` are pure reads, so `compose` is the only
operation that adds entries. -/
theorem C8_registry_keyed_by_id (env : Env) (now : Nat) (c : Composer)
    (config : LITConfig) :
    Composer.findLIT (Composer.compose env now c config).1
        (Composer.compose env now c config).2.id =
      some (Composer.compose env now c config).2 ∧
    (Composer.compose env now c config).2 ∈
      Composer.getAllLITs (Composer.compose env now c config).1 ∧
    (Composer.compose env now c config).2 ∈
      Composer.findByType (Composer.compose env now c config).1
        (Composer.compose env now c config).2.litType ∧
    (∀ (ids : List String) (rtype : String),
      (Composer.network env now c ids rtype).map Prod.fst = c.map Prod.fst) := by
  refine ⟨lookup_mapSet_self c _ _, mem_values_mapSet c _ _, ?_, ?_⟩
  · rw [Composer.findByType, List.mem_filter]
    exact ⟨mem_values_mapSet c _ _, by simp⟩
  · intro ids rtype
    rw [Composer.network]
    generalize ids.zip ids.tail = ps
    induction ps generalizing c with
    | nil => rfl
    | cons p ps ih =>
      rw [List.foldl_cons]
      rw [ih (mapAdjust c p.1 fun l => l.relate env now p.2 rtype)]
      exact mapAdjust_keys c p.1 _

/-! ## C9: automatic pattern selection never fails -/

lemma select_defaults (env : Env) (now : Nat) (lits : List LIT) :
    ∃ p, selectFusionPattern env now defaultPatterns lits = some p ∧
      p ∈ defaultPatterns.map Prod.snd := by
  unfold selectFusionPattern
  dsimp only
  split_ifs with h1 h2 h3
  · exact ⟨transcendencePattern, rfl, by simp [defaultPatterns]⟩
  · exact ⟨creativePattern, rfl, by simp [defaultPatterns]⟩
  · exact ⟨processualPattern, rfl, by simp [defaultPatterns]⟩
  · exact ⟨harmonicPattern, rfl, by simp [defaultPatterns]⟩

/-- C9: on the pattern map `initializeDefaultPatterns` installs,
`selectFusionPattern` returns one of the registered default patterns for
every (in particular every non-empty) list of LITs — never `undefined` —
and consequently a `fuse(litIDs)` call with no explicit pattern name can
never raise the `'Fusion pattern not found'` error. -/
theorem C9_selection_never_fails (env : Env) (now : Nat) (lits : List LIT)
    (hne : lits ≠ []) :
    (∃ p, selectFusionPattern env now defaultPatterns lits = some p ∧
      p ∈ defaultPatterns.map Prod.snd) ∧
    (∀ (s : EngineState) (litIDs : List String) (s2 : EngineState) (e : FuseErr),
      s.patterns = defaultPatterns →
      EngineState.fuse env now s litIDs none = (s2, Except.error e) →
      ∀ n, e ≠ FuseErr.patternNotFound n) := by
  refine ⟨select_defaults env now lits, ?_⟩
  intro s litIDs s2 e hp h n
  rw [EngineState.fuse.eq_def] at h
  by_cases h2 : (litIDs.filterMap fun id => Composer.findLIT s.composer id).length < 2
  · simp only [h2, if_pos] at h
    have he := (Except.error.inj (Prod.mk.inj h).2).symm
    rw [he]
    intro hc
    exact FuseErr.noConfusion hc
  · simp only [h2, if_neg, if_false] at h
    obtain ⟨p, hsel, _⟩ := select_defaults env now
      (litIDs.filterMap fun id => Composer.findLIT s.composer id)
    rw [hp] at h
    rw [hsel] at h
    by_cases hcf : p.canFuse (litIDs.filterMap fun id => Composer.findLIT s.composer id)
    · simp only [hcf, if_pos] at h
      simp at h
    · simp only [hcf, if_neg, if_false] at h
      have he := (Except.error.inj (Prod.mk.inj h).2).symm
      rw [he]
      intro hc
      exact FuseErr.noConfusion hc

/-- C9 witness: the selection applied to a concrete one-LIT list, and the
impossibility of `patternNotFound` exercised on a concrete failing `fuse`
with the pattern name omitted. -/
theorem C9_witness :
    (∃ p, selectFusionPattern env0 0 defaultPatterns [simpleLit] = some p ∧
      p ∈ defaultPatterns.map Prod.snd) ∧
    FuseErr.tooFewLits ≠ FuseErr.patternNotFound none :=
  And.intro
    (C9_selection_never_fails env0 0 [simpleLit] (by simp)).1
    ((C9_selection_never_fails env0 0 [simpleLit] (by simp)).2 (EngineState.init [])
      ["a"] (EngineState.fuse env0 0 (EngineState.init []) ["a"] none).1
      FuseErr.tooFewLits rfl rfl none)

/-! ## C6: what a Harmonic Synthesis fusion produces -/

/-- C6: for every successful `fuse` under `'Harmonic Synthesis'` (on the
default pattern map), the fused LIT's `content.synthesizedKnowledge` is the
source LITs' `content.knowledge || content.description || ''` — in
resolution order — joined with `' ⊕ '` (JavaScript `||`, so a falsy
`knowledge` falls back to `description`, then to the empty string; the
joined values are coerced as `Array.prototype.join` does), and the fused
LIT's derived scores are recomputed by the same formulas on the new
content: its `CoherenceField` is `CoherenceField.create` of its own (new)
content, its `AgentSystem` is a fresh one with no capabilities, and its
`TemporalSignature` is a fresh one created at the fusion tick carrying only
the `'fusion'` boost interaction. -/
theorem C6_harmonic_synthesis (env : Env) (now : Nat) (s : EngineState)
    (litIDs : List String) (s2 : EngineState) (res : FuseResult)
    (hp : s.patterns = defaultPatterns)
    (hfuse : EngineState.fuse env now s litIDs (some "Harmonic Synthesis") =
      (s2, Except.ok res)) :
    res.fusedLIT.content.getField "synthesizedKnowledge" =
      some (JsonVal.str (String.intercalate " ⊕ "
        ((litIDs.filterMap fun id => Composer.findLIT s.composer id).map fun l =>
          joinElem env (jsOrElse (l.content.getField "knowledge")
            (jsOrElse (l.content.getField "description") (JsonVal.str "")))))) ∧
    res.fusedLIT.coherenceField = CoherenceField.create env res.fusedLIT.content ∧
    res.fusedLIT.agentSystem = AgentSystem.init [] ∧
    (∃ imp, res.fusedLIT.temporalSignature =
      TemporalSignature.record env (TemporalSignature.init now) now "fusion" imp) := by
  rw [EngineState.fuse.eq_def] at hfuse
  by_cases h2 : (litIDs.filterMap fun id => Composer.findLIT s.composer id).length < 2
  · simp only [h2, if_pos] at hfuse
    simp at hfuse
  · simp only [h2, if_neg, if_false] at hfuse
    rw [hp] at hfuse
    rw [if_neg (show ¬("Harmonic Synthesis" = "") from by decide)] at hfuse
    rw [show List.lookup "Harmonic Synthesis" defaultPatterns = some harmonicPattern
      from rfl] at hfuse
    by_cases hcf : harmonicPattern.canFuse
        (litIDs.filterMap fun id => Composer.findLIT s.composer id)
    · simp only [hcf, if_pos] at hfuse
      have hok := (Prod.mk.inj hfuse).2
      have hres := Except.ok.inj hok
      subst hres
      exact ⟨rfl, rfl, rfl, ⟨_, rfl⟩⟩
    · simp only [hcf, if_neg, if_false] at hfuse
      simp at hfuse

def fuseDemo : EngineState × Except FuseErr FuseResult :=
  EngineState.fuse env0 10 demoEngine ["a", "b"] (some "Harmonic Synthesis")

def emptyRes : FuseResult :=
  FuseResult.mk simpleLit (EmergenceMetrics.mk JSNum.nan JSNum.nan JSNum.nan JSNum.nan) ""

def okOr (r : Except FuseErr FuseResult) : FuseResult :=
  match r with
  | Except.ok v => v
  | Except.error _ => emptyRes

/-- The result of a concrete successful Harmonic Synthesis fusion of the two
demo knowledge LITs. -/
def demoRes : FuseResult := okOr fuseDemo.2

/-- C6 witness: fusing the demo LITs (knowledge `"K1"` and `"K2"`) under
`'Harmonic Synthesis'` produces `synthesizedKnowledge = "K1 ⊕ K2"`. -/
theorem C6_witness :
    demoRes.fusedLIT.content.getField "synthesizedKnowledge" =
      some (JsonVal.str "K1 ⊕ K2") := by
  have h : EngineState.fuse env0 10 demoEngine ["a", "b"] (some "Harmonic Synthesis") =
      (fuseDemo.1, Except.ok demoRes) := rfl
  have h2 := (C6_harmonic_synthesis env0 10 demoEngine ["a", "b"] fuseDemo.1 demoRes
    rfl h).1
  refine h2.trans ?_
  rw [show (List.filterMap (fun id => Composer.findLIT demoEngine.composer id)
      ["a", "b"]) = [LIT.create env0 1 cfgA, LIT.create env0 2 cfgB] from rfl]
  rw [List.map_cons, List.map_cons, List.map_nil]
  rw [show jsOrElse ((LIT.create env0 1 cfgA).content.getField "knowledge")
      (jsOrElse ((LIT.create env0 1 cfgA).content.getField "description")
        (JsonVal.str "")) = JsonVal.str "K1" from rfl]
  rw [show jsOrElse ((LIT.create env0 2 cfgB).content.getField "knowledge")
      (jsOrElse ((LIT.create env0 2 cfgB).content.getField "description")
        (JsonVal.str "")) = JsonVal.str "K2" from rfl]
  simp only [joinElem, jsToString]
  rfl
